import Mathlib

/-!
Verification of the boid-rs hand-detection specification.

This file gives a shallow embedding, in Lean 4, of the hand-detection code of
the boid-rs repository and proves the specified properties about it.

Embedded source files:
* `src/boid-shared/src/lib.rs` — `Position`, `HandLandmarks`;
* `src/boid-hand-detector/src/lib.rs` — `Rgb`, `Hsv`, `Point`, `HandDetector`
  with `process_rgba_image` / `process_bgr_image`;
* `src/boid-client/src/hand_tracker.rs` — `extract_hand_landmarks` and
  `simple_landmark_detection` (the OpenCV calls they make are modelled as
  explicit oracle arguments: the hull index list, the success/failure of the
  convexity-defect computation, and the image moments).

Modelling conventions:
* `f32` / `f64` arithmetic is modelled by exact rational arithmetic (ℚ).
  All the `f32` values that arise in the detector are small integers or
  quotients thereof, so exact arithmetic is the intended real semantics.
* `usize` is modelled by ℕ, `i32` by ℤ.
* A byte slice is modelled by its length together with a total contents
  function `ℕ → ℕ`; the code under verification checks the length before any
  access, so all reads are in bounds.
* `f32::sqrt` comparisons (`distance < t`) are modelled by the equivalent
  comparison of squares (`dist² < t²`), valid since `Real.sqrt` is strictly
  monotone on nonnegatives; `pinch_distance` itself is modelled with
  `Real.sqrt`.
* Rust's stable `sort_by_key` is modelled by a stable insertion sort
  (`sortByKey` below): equal keys keep their original relative order, and the
  result is sorted — exactly the observable behaviour of the Rust sort.
-/

/-! ## Shared data model (`src/boid-shared/src/lib.rs`) -/

/-- `Position` from boid-shared: a 2D position with `f32` coordinates,
modelled over ℚ. -/
structure Position where
  x : ℚ
  y : ℚ
deriving DecidableEq

/-- `Position::new`. -/
def Position.new (x y : ℚ) : Position := ⟨x, y⟩

/-- `Position::distance_to`: Euclidean distance, `libm::sqrtf(dx*dx + dy*dy)`
modelled with `Real.sqrt` over the exact rational coordinates. -/
noncomputable def Position.distance_to (p other : Position) : ℝ :=
  Real.sqrt (((p.x : ℝ) - (other.x : ℝ)) * ((p.x : ℝ) - (other.x : ℝ)) +
    ((p.y : ℝ) - (other.y : ℝ)) * ((p.y : ℝ) - (other.y : ℝ)))

/-- A `Position` viewed as a point of the Euclidean plane
(`EuclideanSpace ℝ (Fin 2)`), used to state that `distance_to` is the
Euclidean distance. -/
noncomputable def Position.toEuclidean (p : Position) : EuclideanSpace ℝ (Fin 2) :=
  ![(p.x : ℝ), (p.y : ℝ)]

/-- `HandLandmarks` from boid-shared: thumb tip and index tip. -/
structure HandLandmarks where
  thumb_tip : Position
  index_tip : Position
deriving DecidableEq

/-- `HandLandmarks::new`. -/
def HandLandmarks.new (thumb_tip index_tip : Position) : HandLandmarks :=
  ⟨thumb_tip, index_tip⟩

/-- `HandLandmarks::pinch_distance`: distance between thumb and index tips. -/
noncomputable def HandLandmarks.pinch_distance (l : HandLandmarks) : ℝ :=
  l.thumb_tip.distance_to l.index_tip

/-! ## Color model (`src/boid-hand-detector/src/lib.rs`) -/

/-- `Rgb`: an 8-bit RGB color; the `u8` components are modelled by ℕ
(with `≤ 255` as a side condition where it matters). -/
structure Rgb where
  r : ℕ
  g : ℕ
  b : ℕ
deriving DecidableEq

/-- `Rgb::new`. -/
def Rgb.new (r g b : ℕ) : Rgb := ⟨r, g, b⟩

/-- `Hsv`: hue 0–360, saturation 0–100, value 0–100 (`f32`, modelled by ℚ). -/
structure Hsv where
  h : ℚ
  s : ℚ
  v : ℚ
deriving DecidableEq

/-- Truncation toward zero of a rational, the rounding used by Rust's `%`
on floats (`x % y = x - y * trunc (x / y)`). -/
def qtrunc (q : ℚ) : ℤ :=
  if 0 ≤ q then ⌊q⌋ else ⌈q⌉

/-- Rust's `%` on floating-point values (remainder with the sign of the
dividend), over ℚ: `x - y * trunc (x / y)`. -/
def fmodf (x y : ℚ) : ℚ :=
  x - y * (qtrunc (x / y) : ℚ)

/-- `Rgb::to_hsv`: RGB → HSV conversion, following the source line by line
(components scaled to `[0,1]`, hue from the dominant channel, saturation and
value in percent). -/
def Rgb.to_hsv (c : Rgb) : Hsv :=
  let r : ℚ := (c.r : ℚ) / 255
  let g : ℚ := (c.g : ℚ) / 255
  let b : ℚ := (c.b : ℚ) / 255
  let max : ℚ := Max.max (Max.max r g) b
  let min : ℚ := Min.min (Min.min r g) b
  let delta : ℚ := max - min
  let h : ℚ :=
    if delta = 0 then 0
    else if max = r then 60 * fmodf ((g - b) / delta) 6
    else if max = g then 60 * (((b - r) / delta) + 2)
    else 60 * (((r - g) / delta) + 4)
  let h : ℚ := if h < 0 then h + 360 else h
  let s : ℚ := if max = 0 then 0 else delta / max * 100
  let v : ℚ := max * 100
  ⟨h, s, v⟩

/-- `Rgb::is_skin_color`: HSV gate `h ≤ 50 ∧ 15 ≤ s ≤ 90 ∧ 25 ≤ v ≤ 95`. -/
def Rgb.is_skin_color (c : Rgb) : Bool :=
  let hsv := c.to_hsv
  decide (hsv.h ≤ 50) && decide (15 ≤ hsv.s) && decide (hsv.s ≤ 90) &&
    decide (25 ≤ hsv.v) && decide (hsv.v ≤ 95)

/-! ## Image points (`src/boid-hand-detector/src/lib.rs`) -/

/-- `Point`: a 2D point in image coordinates (`usize`, modelled by ℕ). -/
structure Point where
  x : ℕ
  y : ℕ
deriving DecidableEq

/-- `Point::new`. -/
def Point.new (x y : ℕ) : Point := ⟨x, y⟩

/-- The square of `Point::distance_to` (`dx*dx + dy*dy` over the `i32`
differences); the source compares `distance_to < t` for `t ≥ 0`, which is
equivalent to `dist_sq < t*t`. -/
def Point.dist_sq (p other : Point) : ℤ :=
  ((p.x : ℤ) - (other.x : ℤ)) * ((p.x : ℤ) - (other.x : ℤ)) +
    ((p.y : ℤ) - (other.y : ℤ)) * ((p.y : ℤ) - (other.y : ℤ))

/-! ## Stable sort by key

Rust's `sort_by_key` is a stable sort.  We model it by a stable insertion
sort: an element is inserted after every earlier element whose key is `≤` its
own, so equal keys keep their original relative order and the result is
sorted by the key. -/

/-- Insert `a` into `l`, keeping every element with a strictly smaller key
before `a` and placing `a` before the first element with a key `≥` its own
that would violate stability (i.e. before the first element whose key is
strictly greater — equal keys already present stay in front). -/
def insKey {α : Type} {κ : Type} [LinearOrder κ] (key : α → κ) (a : α) :
    List α → List α
  | [] => [a]
  | b :: bs => if key b < key a then b :: insKey key a bs else a :: b :: bs

/-- Stable insertion sort by a key function; models Rust's `sort_by_key`. -/
def sortByKey {α : Type} {κ : Type} [LinearOrder κ] (key : α → κ) :
    List α → List α
  | [] => []
  | a :: as => insKey key a (sortByKey key as)

/-! ## The pixel-scan hand detector (`src/boid-hand-detector/src/lib.rs`)

`process_rgba_image` and `process_bgr_image` differ only in how a pixel's
RGB value is read out of the byte buffer; everything after the skin-pixel
scan is textually identical in the source.  The embedding factors the shared
part into `detectPipeline` (the two Rust bodies are line-for-line copies of
one another after the scan). -/

/-- `HandDetector`: configuration of the pixel-scan detector. -/
structure HandDetector where
  min_skin_pixels : ℕ
  grouping_threshold : ℕ
deriving DecidableEq

/-- `HandDetector::new`: defaults `min_skin_pixels = 2000`,
`grouping_threshold = 30`. -/
def HandDetector.new : HandDetector := ⟨2000, 30⟩

/-- `HandDetector::with_min_skin_pixels`. -/
def HandDetector.with_min_skin_pixels (d : HandDetector) (min_pixels : ℕ) :
    HandDetector := { d with min_skin_pixels := min_pixels }

/-- `HandDetector::with_grouping_threshold`. -/
def HandDetector.with_grouping_threshold (d : HandDetector) (threshold : ℕ) :
    HandDetector := { d with grouping_threshold := threshold }

/-- The scan order of the pixel loops: `for y in 0..height { for x in
0..width { ... } }`. -/
def allPoints (width height : ℕ) : List Point :=
  (List.range height).flatMap fun y => (List.range width).map fun x => ⟨x, y⟩

/-- Read one pixel of an RGBA buffer: `idx = (y*width + x)*4`, components
`data[idx], data[idx+1], data[idx+2]` (alpha ignored by the source). -/
def rgbaPixel (data : ℕ → ℕ) (width x y : ℕ) : Rgb :=
  let idx := (y * width + x) * 4
  ⟨data idx, data (idx + 1), data (idx + 2)⟩

/-- Read one pixel of a BGR buffer: `idx = (y*width + x)*3`, components
`Rgb::new(data[idx + 2], data[idx + 1], data[idx])`. -/
def bgrPixel (data : ℕ → ℕ) (width x y : ℕ) : Rgb :=
  let idx := (y * width + x) * 3
  ⟨data (idx + 2), data (idx + 1), data idx⟩

/-- The skin-pixel scan of `process_rgba_image`: all points whose RGBA pixel
passes `is_skin_color`, in scan order. -/
def skinPixelsRgba (width height : ℕ) (data : ℕ → ℕ) : List Point :=
  (allPoints width height).filter fun p =>
    (rgbaPixel data width p.x p.y).is_skin_color

/-- The skin-pixel scan of `process_bgr_image`. -/
def skinPixelsBgr (width height : ℕ) (data : ℕ → ℕ) : List Point :=
  (allPoints width height).filter fun p =>
    (bgrPixel data width p.x p.y).is_skin_color

/-- The inner candidate-merging loop: scan `finger_candidates` in order and
average the first candidate within `grouping_threshold` of `p` in place
(`candidate = ((candidate.x + p.x)/2, (candidate.y + p.y)/2)`); `none` when
no candidate is close enough. -/
def mergeFirst (thr : ℕ) (p : Point) : List Point → Option (List Point)
  | [] => none
  | c :: cs =>
    if p.dist_sq c < (thr : ℤ) * (thr : ℤ) then
      some (⟨(c.x + p.x) / 2, (c.y + p.y) / 2⟩ :: cs)
    else (mergeFirst thr p cs).map (c :: ·)

/-- One iteration of the grouping loop: merge `p` into the first nearby
candidate, or append it as a new candidate. -/
def clusterStep (thr : ℕ) (cands : List Point) (p : Point) : List Point :=
  match mergeFirst thr p cands with
  | some cs => cs
  | none => cands ++ [p]

/-- The grouping loop over the (already sorted and truncated) top points:
process points in order, stopping as soon as 5 candidates exist. -/
def clusterLoop (thr : ℕ) : List Point → List Point → List Point
  | [], cands => cands
  | p :: ps, cands =>
    let cands2 := clusterStep thr cands p
    if 5 ≤ cands2.length then cands2 else clusterLoop thr ps cands2

/-- The tail of the detector, from the fingertip-candidate filter on:
sort the top points by `y`, group the first 100 of them, require at least 2
candidates, sort candidates by `x` and report the two leftmost as thumb and
index. -/
def detectFromTop (d : HandDetector) (top_points : List Point) :
    Option HandLandmarks :=
  if top_points.length < 2 then none
  else
    let sorted := sortByKey Point.y top_points
    let finger_candidates := clusterLoop d.grouping_threshold (sorted.take 100) []
    if finger_candidates.length < 2 then none
    else
      let byX := sortByKey Point.x finger_candidates
      let thumb := byX.getD 0 ⟨0, 0⟩
      let index := byX.getD 1 ⟨0, 0⟩
      some (HandLandmarks.new (Position.new (thumb.x : ℚ) (thumb.y : ℚ))
        (Position.new (index.x : ℚ) (index.y : ℚ)))

/-- The bounding-box stage: compute min/max of the skin-pixel coordinates
(each `min()?` / `max()?` returns `None` on an empty list), reject a
degenerate box, filter the pixels to the top third of the region, and hand
over to `detectFromTop`. -/
def boundSkinRegion (d : HandDetector) (skin_pixels : List Point) :
    Option HandLandmarks :=
  match (skin_pixels.map Point.x).min?, (skin_pixels.map Point.x).max?,
      (skin_pixels.map Point.y).min?, (skin_pixels.map Point.y).max? with
  | some min_x, some max_x, some min_y, some max_y =>
    if max_x ≤ min_x ∨ max_y ≤ min_y then none
    else
      let top_threshold := min_y + (max_y - min_y) / 3
      let top_points := skin_pixels.filter fun p => p.y < top_threshold
      detectFromTop d top_points
  | _, _, _, _ => none

/-- Everything after the skin-pixel scan (shared verbatim between the RGBA
and BGR bodies in the source): the `min_skin_pixels` count gate, then the
bounding-box stage. -/
def detectPipeline (d : HandDetector) (skin_pixels : List Point) :
    Option HandLandmarks :=
  if skin_pixels.length < d.min_skin_pixels then none
  else boundSkinRegion d skin_pixels

/-- `HandDetector::process_rgba_image`: length gate (`4` bytes per pixel),
skin scan over the RGBA buffer, then the shared pipeline. -/
def HandDetector.process_rgba_image (d : HandDetector)
    (width height : ℕ) (dataLen : ℕ) (data : ℕ → ℕ) : Option HandLandmarks :=
  if dataLen < width * height * 4 then none
  else detectPipeline d (skinPixelsRgba width height data)

/-- `HandDetector::process_bgr_image`: length gate (`3` bytes per pixel),
skin scan over the BGR buffer, then the shared pipeline. -/
def HandDetector.process_bgr_image (d : HandDetector)
    (width height : ℕ) (dataLen : ℕ) (data : ℕ → ℕ) : Option HandLandmarks :=
  if dataLen < width * height * 3 then none
  else detectPipeline d (skinPixelsBgr width height data)

/-! ### Row-major encodings of a pixel grid (for the RGBA/BGR equivalence)

A pixel grid is a function `ℕ → ℕ → Rgb` (indexed `x`, `y`).  Its row-major
RGBA encoding stores pixel `(x, y)` at byte offset `(y*width + x)*4` as
`R, G, B, A`; the BGR encoding stores it at `(y*width + x)*3` as `B, G, R`. -/

/-- Row-major RGBA encoding of a grid (alpha bytes set to 255). -/
def encodeRgba (width : ℕ) (grid : ℕ → ℕ → Rgb) : ℕ → ℕ := fun i =>
  let pix := grid (i / 4 % width) (i / 4 / width)
  if i % 4 = 0 then pix.r
  else if i % 4 = 1 then pix.g
  else if i % 4 = 2 then pix.b
  else 255

/-- Row-major BGR encoding of a grid. -/
def encodeBgr (width : ℕ) (grid : ℕ → ℕ → Rgb) : ℕ → ℕ := fun i =>
  let pix := grid (i / 3 % width) (i / 3 / width)
  if i % 3 = 0 then pix.b
  else if i % 3 = 1 then pix.g
  else pix.r

/-! ## The geometric strategy (`src/boid-client/src/hand_tracker.rs`)

`extract_hand_landmarks` and `simple_landmark_detection` call into OpenCV.
The OpenCV results are modelled as explicit oracle arguments:

* `hull` — the contents of `hull_indices` after `convex_hull_idx` (a list of
  `i32` indices into the contour);
* `defectsResult` — whether `convexity_defects` succeeded (`Except Unit Unit`;
  the source never reads the defect vectors, only whether the call failed);
* `m` — the image moments `m00`, `m10`, `m01` returned by `imgproc::moments`
  (`f64`, modelled by ℚ).

The contour is a list of OpenCV points (`i32` coordinates, modelled by ℤ).
Both functions return `Result<Option<HandLandmarks>>`, modelled as
`Except Unit (Option HandLandmarks)`. -/

/-- An OpenCV contour point (`opencv::core::Point`, `i32` coordinates). -/
structure CvPoint where
  x : ℤ
  y : ℤ
deriving DecidableEq

/-- The image moments used by the fallback extractor. -/
structure Moments where
  m00 : ℚ
  m10 : ℚ
  m01 : ℚ
deriving DecidableEq

/-- The fingertip-candidate collection of `extract_hand_landmarks`: for each
hull index `i` (an `i32`, reinterpreted as a 64-bit `usize`, so negative
values wrap to huge numbers), keep `contour[idx]` when `idx` is in bounds. -/
def hullFingertips (contour : List CvPoint) (hull : List ℤ) : List CvPoint :=
  hull.filterMap fun i =>
    let idx := (i % 18446744073709551616).toNat
    if idx < contour.length then some (contour.getD idx ⟨0, 0⟩) else none

/-- `HandTracker::simple_landmark_detection` (the fallback extractor):
zero total moment fails softly (`Ok(None)`); otherwise take the topmost
contour point as the thumb and, among points whose squared distance to the
topmost exceeds 30, the one with smallest `y` (scanning in order, strict
improvement) as the index.  `contour.get(0)?` on an empty contour is an
error. -/
def simple_landmark_detection (m : Moments) (contour : List CvPoint) :
    Except Unit (Option HandLandmarks) :=
  if m.m00 = 0 then .ok none
  else
    match contour with
    | [] => .error ()
    | c0 :: rest =>
      let _cx : ℚ := m.m10 / m.m00
      let _cy : ℚ := m.m01 / m.m00
      let topmost := rest.foldl (fun t p => if p.y < t.y then p else t) c0
      let second :=
        (contour.foldl
          (fun (st : CvPoint × ℤ) p =>
            let distance := (p.x - topmost.x) * (p.x - topmost.x) +
              (p.y - topmost.y) * (p.y - topmost.y)
            if p.y < st.2 ∧ distance > 30 then (p, p.y) else st)
          (c0, 2147483647)).1
      .ok (some (HandLandmarks.new
        (Position.new (topmost.x : ℚ) (topmost.y : ℚ))
        (Position.new (second.x : ℚ) (second.y : ℚ))))

/-- `HandTracker::extract_hand_landmarks` (the geometric strategy): fewer
than 3 hull vertices is `Ok(None)`; a failed convexity-defect computation
delegates to the fallback; fewer than 2 collected fingertip candidates
delegates to the fallback; otherwise sort candidates by `y`, keep the first
5, sort those by `x`, and report the two leftmost as thumb and index. -/
def extract_hand_landmarks (contour : List CvPoint) (hull : List ℤ)
    (defectsResult : Except Unit Unit) (m : Moments) :
    Except Unit (Option HandLandmarks) :=
  if hull.length < 3 then .ok none
  else
    match defectsResult with
    | .error _ => simple_landmark_detection m contour
    | .ok _ =>
      let fingertips := hullFingertips contour hull
      if fingertips.length < 2 then simple_landmark_detection m contour
      else
        let sorted := sortByKey CvPoint.y fingertips
        let top_points := sortByKey CvPoint.x (sorted.take 5)
        if 2 ≤ top_points.length then
          .ok (some (HandLandmarks.new
            (Position.new ((top_points.getD 0 ⟨0, 0⟩).x : ℚ)
              ((top_points.getD 0 ⟨0, 0⟩).y : ℚ))
            (Position.new ((top_points.getD 1 ⟨0, 0⟩).x : ℚ)
              ((top_points.getD 1 ⟨0, 0⟩).y : ℚ))))
        else .ok none

/-! ## Concrete inputs used by witnesses and counterexamples

`colorSkin` is the skin tone used by the repository's own tests
(`Rgb::new(180, 150, 120)`), `colorBlue` the non-skin blue
(`Rgb::new(50, 50, 200)`).  `grid1` is an 8x13 frame with skin pixels at
(5,0), (5,3) and (6,12); `grid2` a 4x6 frame with skin pixels at (2,1) and
(2,4) (a degenerate, single-column skin region). -/

/-- The skin tone from the repository's tests. -/
def colorSkin : Rgb := ⟨180, 150, 120⟩

/-- The non-skin blue from the repository's tests. -/
def colorBlue : Rgb := ⟨50, 50, 200⟩

/-- 8x13 test frame: skin at (5,0), (5,3), (6,12), blue elsewhere. -/
def grid1 : ℕ → ℕ → Rgb := fun x y =>
  if (x = 5 ∧ y = 0) ∨ (x = 5 ∧ y = 3) ∨ (x = 6 ∧ y = 12) then colorSkin
  else colorBlue

/-- The RGBA byte buffer of `grid1`. -/
def data1 : ℕ → ℕ := encodeRgba 8 grid1

/-- A detector configured with `min_skin_pixels = 3`,
`grouping_threshold = 2` (via the public builders). -/
def dCfg3 : HandDetector :=
  (HandDetector.new.with_min_skin_pixels 3).with_grouping_threshold 2

/-- A detector configured with `min_skin_pixels = 4`,
`grouping_threshold = 2`. -/
def dCfg4 : HandDetector :=
  (HandDetector.new.with_min_skin_pixels 4).with_grouping_threshold 2

/-- The landmarks the detector reports on `grid1` under `dCfg3`. -/
def L1 : HandLandmarks := ⟨⟨5, 0⟩, ⟨5, 3⟩⟩

/-- 4x6 test frame: skin at (2,1) and (2,4) only — a zero-width skin
region. -/
def grid2 : ℕ → ℕ → Rgb := fun x y =>
  if (x = 2 ∧ y = 1) ∨ (x = 2 ∧ y = 4) then colorSkin else colorBlue

/-- The RGBA byte buffer of `grid2`. -/
def data2 : ℕ → ℕ := encodeRgba 4 grid2

/-- A detector configured with `min_skin_pixels = 2`,
`grouping_threshold = 2`. -/
def dCfg2 : HandDetector :=
  (HandDetector.new.with_min_skin_pixels 2).with_grouping_threshold 2

/-! ## Lemmas about the stable sort -/

theorem length_insKey {α κ : Type} [LinearOrder κ] (key : α → κ) (a : α)
    (l : List α) : (insKey key a l).length = l.length + 1 := by
  induction l with
  | nil => rfl
  | cons b bs ih =>
    unfold insKey
    split
    · simp [ih]
    · simp

theorem length_sortByKey {α κ : Type} [LinearOrder κ] (key : α → κ)
    (l : List α) : (sortByKey key l).length = l.length := by
  induction l with
  | nil => rfl
  | cons a as ih => simp [sortByKey, length_insKey, ih]

theorem mem_insKey {α κ : Type} [LinearOrder κ] (key : α → κ) (a c : α)
    (l : List α) : c ∈ insKey key a l ↔ c = a ∨ c ∈ l := by
  induction l with
  | nil => simp [insKey]
  | cons b bs ih =>
    unfold insKey
    split
    · simp only [List.mem_cons, ih]
      tauto
    · simp only [List.mem_cons]

theorem mem_sortByKey {α κ : Type} [LinearOrder κ] (key : α → κ) (c : α)
    (l : List α) : c ∈ sortByKey key l ↔ c ∈ l := by
  induction l with
  | nil => simp [sortByKey]
  | cons a as ih =>
    simp [sortByKey, mem_insKey, ih]

theorem pairwise_insKey {α κ : Type} [LinearOrder κ] (key : α → κ) (a : α)
    (l : List α) (hl : l.Pairwise (fun p q => key p ≤ key q)) :
    (insKey key a l).Pairwise (fun p q => key p ≤ key q) := by
  induction l with
  | nil => simp [insKey]
  | cons b bs ih =>
    rcases List.pairwise_cons.mp hl with ⟨hb, hbs⟩
    unfold insKey
    split
    · rename_i hlt
      refine List.pairwise_cons.mpr ⟨?_, ih hbs⟩
      intro c hc
      rcases (mem_insKey key a c bs).mp hc with rfl | hc
      · exact le_of_lt hlt
      · exact hb c hc
    · rename_i hnlt
      refine List.pairwise_cons.mpr ⟨?_, hl⟩
      intro c hc
      rcases List.mem_cons.mp hc with rfl | hc
      · exact le_of_not_lt hnlt
      · exact le_trans (le_of_not_lt hnlt) (hb c hc)

theorem pairwise_sortByKey {α κ : Type} [LinearOrder κ] (key : α → κ)
    (l : List α) :
    (sortByKey key l).Pairwise (fun p q => key p ≤ key q) := by
  induction l with
  | nil => simp [sortByKey]
  | cons a as ih => exact pairwise_insKey key a _ ih

/-! ## Rounding helpers for the HSV conversion -/

theorem qtrunc_eq_zero {q : ℚ} (h1 : -1 < q) (h2 : q < 1) : qtrunc q = 0 := by
  unfold qtrunc
  split
  · exact Int.floor_eq_zero_iff.mpr ⟨by assumption, h2⟩
  · rename_i h
    exact Int.ceil_eq_zero_iff.mpr ⟨h1, le_of_not_le h⟩

theorem fmodf_eq_self {x y : ℚ} (hy : 0 < y) (h1 : -y < x) (h2 : x < y) :
    fmodf x y = x := by
  unfold fmodf
  rw [qtrunc_eq_zero (by rw [neg_lt, ← neg_div, div_lt_one hy]; linarith)
    (by rwa [div_lt_one hy])]
  push_cast
  ring

/-! ## Evaluation of the skin predicate at the two test colors -/

theorem to_hsv_colorSkin : colorSkin.to_hsv = ⟨30, 100 / 3, 1200 / 17⟩ := by
  unfold colorSkin Rgb.to_hsv
  norm_num [max_def, min_def]
  rw [show fmodf ((1 : ℚ) / 2) 6 = 1 / 2 from
    fmodf_eq_self (by norm_num) (by norm_num) (by norm_num)]
  norm_num

theorem colorSkin_is_skin : colorSkin.is_skin_color = true := by
  simp only [Rgb.is_skin_color]
  rw [to_hsv_colorSkin]
  norm_num

theorem to_hsv_colorBlue_h : colorBlue.to_hsv.h = 240 := by
  unfold colorBlue Rgb.to_hsv
  norm_num [max_def, min_def]

theorem colorBlue_not_skin : colorBlue.is_skin_color = false := by
  simp only [Rgb.is_skin_color]
  rw [to_hsv_colorBlue_h]
  norm_num

/-! ## Decoding an encoded grid -/

theorem rgbaPixel_encode (w : ℕ) (grid : ℕ → ℕ → Rgb) (x y : ℕ) (hx : x < w) :
    rgbaPixel (encodeRgba w grid) w x y = grid x y := by
  have hw : 0 < w := Nat.lt_of_le_of_lt (Nat.zero_le x) hx
  have hq1 : (y * w + x) % w = x := by
    rw [Nat.add_comm, Nat.mul_comm, Nat.add_mul_mod_self_left, Nat.mod_eq_of_lt hx]
  have hq2 : (y * w + x) / w = y := by
    rw [Nat.add_comm, Nat.mul_comm, Nat.add_mul_div_left _ _ hw,
      Nat.div_eq_of_lt hx, Nat.zero_add]
  have e0 : (y * w + x) * 4 / 4 = y * w + x := by omega
  have e0m : (y * w + x) * 4 % 4 = 0 := by omega
  have e1 : ((y * w + x) * 4 + 1) / 4 = y * w + x := by omega
  have e1m : ((y * w + x) * 4 + 1) % 4 = 1 := by omega
  have e2 : ((y * w + x) * 4 + 2) / 4 = y * w + x := by omega
  have e2m : ((y * w + x) * 4 + 2) % 4 = 2 := by omega
  simp only [rgbaPixel, encodeRgba, e0, e0m, e1, e1m, e2, e2m, hq1, hq2]
  norm_num

theorem bgrPixel_encode (w : ℕ) (grid : ℕ → ℕ → Rgb) (x y : ℕ) (hx : x < w) :
    bgrPixel (encodeBgr w grid) w x y = grid x y := by
  have hw : 0 < w := Nat.lt_of_le_of_lt (Nat.zero_le x) hx
  have hq1 : (y * w + x) % w = x := by
    rw [Nat.add_comm, Nat.mul_comm, Nat.add_mul_mod_self_left, Nat.mod_eq_of_lt hx]
  have hq2 : (y * w + x) / w = y := by
    rw [Nat.add_comm, Nat.mul_comm, Nat.add_mul_div_left _ _ hw,
      Nat.div_eq_of_lt hx, Nat.zero_add]
  have e0 : (y * w + x) * 3 / 3 = y * w + x := by omega
  have e0m : (y * w + x) * 3 % 3 = 0 := by omega
  have e1 : ((y * w + x) * 3 + 1) / 3 = y * w + x := by omega
  have e1m : ((y * w + x) * 3 + 1) % 3 = 1 := by omega
  have e2 : ((y * w + x) * 3 + 2) / 3 = y * w + x := by omega
  have e2m : ((y * w + x) * 3 + 2) % 3 = 2 := by omega
  simp only [bgrPixel, encodeBgr, e0, e0m, e1, e1m, e2, e2m, hq1, hq2]
  norm_num

/-! ## Scan-order points -/

theorem mem_allPoints {w h : ℕ} {p : Point} :
    p ∈ allPoints w h ↔ p.x < w ∧ p.y < h := by
  unfold allPoints
  simp only [List.mem_flatMap, List.mem_map, List.mem_range]
  constructor
  · rintro ⟨y, hy, x, hx, rfl⟩
    exact ⟨hx, hy⟩
  · rintro ⟨hx, hy⟩
    exact ⟨p.y, hy, p.x, hx, rfl⟩

/-! ## Evaluation of the detector on the test frames -/

theorem frame1_skin :
    skinPixelsRgba 8 13 data1 = [⟨5, 0⟩, ⟨5, 3⟩, ⟨6, 12⟩] := by
  unfold skinPixelsRgba
  have hcong : ∀ p ∈ allPoints 8 13,
      ((rgbaPixel data1 8 p.x p.y).is_skin_color : Bool) =
      (decide ((p.x = 5 ∧ p.y = 0) ∨ (p.x = 5 ∧ p.y = 3) ∨ (p.x = 6 ∧ p.y = 12)) : Bool) := by
    intro p hp
    have hx : p.x < 8 := (mem_allPoints.mp hp).1
    unfold data1
    rw [rgbaPixel_encode 8 grid1 p.x p.y hx]
    simp only [grid1]
    by_cases hc : (p.x = 5 ∧ p.y = 0) ∨ (p.x = 5 ∧ p.y = 3) ∨ (p.x = 6 ∧ p.y = 12)
    · simp [hc, colorSkin_is_skin]
    · simp [hc, colorBlue_not_skin]
  rw [List.filter_congr hcong]
  decide

theorem frame1_eval :
    HandDetector.process_rgba_image dCfg3 8 13 416 data1 = some L1 := by
  unfold HandDetector.process_rgba_image
  rw [if_neg (by norm_num), frame1_skin]
  decide

theorem frame2_skin :
    skinPixelsRgba 4 6 data2 = [⟨2, 1⟩, ⟨2, 4⟩] := by
  unfold skinPixelsRgba
  have hcong : ∀ p ∈ allPoints 4 6,
      ((rgbaPixel data2 4 p.x p.y).is_skin_color : Bool) =
      (decide ((p.x = 2 ∧ p.y = 1) ∨ (p.x = 2 ∧ p.y = 4)) : Bool) := by
    intro p hp
    have hx : p.x < 4 := (mem_allPoints.mp hp).1
    unfold data2
    rw [rgbaPixel_encode 4 grid2 p.x p.y hx]
    simp only [grid2]
    by_cases hc : (p.x = 2 ∧ p.y = 1) ∨ (p.x = 2 ∧ p.y = 4)
    · simp [hc, colorSkin_is_skin]
    · simp [hc, colorBlue_not_skin]
  rw [List.filter_congr hcong]
  decide

/-! ## Structure of a successful pixel-scan detection -/

theorem skinPixelsRgba_bound {w h : ℕ} {data : ℕ → ℕ} :
    ∀ p ∈ skinPixelsRgba w h data, p.x < w ∧ p.y < h :=
  fun _ hp => mem_allPoints.mp (List.mem_of_mem_filter hp)

theorem mergeFirst_bound {w h thr : ℕ} {q : Point} {cands cs : List Point}
    (hq : q.x < w ∧ q.y < h) (hcs : ∀ p ∈ cands, p.x < w ∧ p.y < h)
    (hm : mergeFirst thr q cands = some cs) :
    ∀ p ∈ cs, p.x < w ∧ p.y < h := by
  induction cands generalizing cs with
  | nil => simp [mergeFirst] at hm
  | cons c cl ih =>
    have hc := hcs c (List.mem_cons_self c cl)
    have hcl : ∀ p ∈ cl, p.x < w ∧ p.y < h :=
      fun p hp => hcs p (List.mem_cons_of_mem c hp)
    rw [mergeFirst] at hm
    split at hm
    · rcases Option.some.injEq _ _ ▸ hm with rfl
      intro p hp
      rcases List.mem_cons.mp hp with rfl | hp
      · constructor
        · show (c.x + q.x) / 2 < w
          omega
        · show (c.y + q.y) / 2 < h
          omega
      · exact hcl p hp
    · rcases Option.map_eq_some'.mp hm with ⟨cs', hcs', rfl⟩
      intro p hp
      rcases List.mem_cons.mp hp with rfl | hp
      · exact hc
      · exact ih hcl hcs' p hp

theorem clusterStep_bound {w h thr : ℕ} {q : Point} {cands : List Point}
    (hq : q.x < w ∧ q.y < h) (hcs : ∀ p ∈ cands, p.x < w ∧ p.y < h) :
    ∀ p ∈ clusterStep thr cands q, p.x < w ∧ p.y < h := by
  unfold clusterStep
  split
  · rename_i cs hm
    exact mergeFirst_bound hq hcs hm
  · intro p hp
    rcases List.mem_append.mp hp with hp | hp
    · exact hcs p hp
    · rcases List.mem_singleton.mp hp with rfl
      exact hq

theorem clusterLoop_bound {w h thr : ℕ} {ps cands : List Point}
    (hps : ∀ p ∈ ps, p.x < w ∧ p.y < h)
    (hcs : ∀ p ∈ cands, p.x < w ∧ p.y < h) :
    ∀ p ∈ clusterLoop thr ps cands, p.x < w ∧ p.y < h := by
  induction ps generalizing cands with
  | nil => intro p hp; exact hcs p (by simpa [clusterLoop] using hp)
  | cons q qs ih =>
    have hq : q.x < w ∧ q.y < h := hps q (List.mem_cons_self q qs)
    have hqs : ∀ p ∈ qs, p.x < w ∧ p.y < h :=
      fun p hp => hps p (List.mem_cons_of_mem q hp)
    intro p hp
    rw [clusterLoop] at hp
    have hstep : ∀ r ∈ clusterStep thr cands q, r.x < w ∧ r.y < h :=
      clusterStep_bound hq hcs
    split at hp
    · exact hstep p hp
    · exact ih hqs hstep p hp

theorem detectFromTop_some {d : HandDetector} {tp : List Point} {l : HandLandmarks}
    (hl : detectFromTop d tp = some l) :
    ∃ a b rest, sortByKey Point.x
        (clusterLoop d.grouping_threshold ((sortByKey Point.y tp).take 100) []) =
        a :: b :: rest ∧
      l = ⟨⟨(a.x : ℚ), (a.y : ℚ)⟩, ⟨(b.x : ℚ), (b.y : ℚ)⟩⟩ := by
  simp only [detectFromTop] at hl
  split at hl
  · exact absurd hl (by simp)
  split at hl
  · exact absurd hl (by simp)
  rename_i h1 h2
  generalize hC : clusterLoop d.grouping_threshold ((sortByKey Point.y tp).take 100) [] = cands at hl h2 ⊢
  generalize hB : sortByKey Point.x cands = byX at hl ⊢
  have hlen : 2 ≤ byX.length := by
    rw [← hB, length_sortByKey]; omega
  rcases byX with _ | ⟨a, tl⟩
  · simp at hlen
  rcases tl with _ | ⟨b, rest⟩
  · simp at hlen
  refine ⟨a, b, rest, rfl, ?_⟩
  simp only [List.getD_cons_zero, List.getD_cons_succ] at hl
  exact (Option.some.injEq _ _ ▸ hl).symm

theorem process_rgba_some {d : HandDetector} {w h len : ℕ} {data : ℕ → ℕ}
    {l : HandLandmarks}
    (hl : d.process_rgba_image w h len data = some l) :
    ∃ tp : List Point, (∀ p ∈ tp, p ∈ skinPixelsRgba w h data) ∧
      detectFromTop d tp = some l := by
  unfold HandDetector.process_rgba_image at hl
  split at hl
  · exact absurd hl (by simp)
  unfold detectPipeline at hl
  split at hl
  · exact absurd hl (by simp)
  unfold boundSkinRegion at hl
  split at hl
  · split at hl
    · exact absurd hl (by simp)
    · exact ⟨_, fun p hp => List.mem_of_mem_filter hp, hl⟩
  · exact absurd hl (by simp)

/-! ## The claims -/

/-- C1 (counterexample to the claim as stated): on an 8x13 frame with skin
pixels at (5,0), (5,3) and (6,12) and the configuration
`min_skin_pixels = 3`, `grouping_threshold = 2`, the pixel-scan detector
returns `Some` landmarks with `thumb_tip.x = index_tip.x = 5`, so the strict
inequality `thumb_tip.x < index_tip.x` fails. -/
theorem claim_C1_counterexample :
    dCfg3.process_rgba_image 8 13 416 data1 = some L1 ∧
      ¬ L1.thumb_tip.x < L1.index_tip.x :=
  ⟨frame1_eval, by norm_num [L1]⟩

/-- C1 (amended): whenever the pixel-scan detector returns
`Some(HandLandmarks)`, the reported points satisfy
`thumb_tip.x ≤ index_tip.x` (the candidates are sorted by `x` and the two
leftmost are reported, so equality is possible but reversal is not). -/
theorem claim_C1_thumb_le_index (d : HandDetector) (width height dataLen : ℕ)
    (data : ℕ → ℕ) (l : HandLandmarks)
    (hl : d.process_rgba_image width height dataLen data = some l) :
    l.thumb_tip.x ≤ l.index_tip.x := by
  obtain ⟨tp, -, htop⟩ := process_rgba_some hl
  obtain ⟨a, b, rest, hshape, rfl⟩ := detectFromTop_some htop
  have hpw := pairwise_sortByKey Point.x
    (clusterLoop d.grouping_threshold ((sortByKey Point.y tp).take 100) [])
  rw [hshape] at hpw
  have hab : a.x ≤ b.x :=
    (List.pairwise_cons.mp hpw).1 b (List.mem_cons_self b rest)
  show (a.x : ℚ) ≤ (b.x : ℚ)
  exact_mod_cast hab

/-- C1 witness: the amended inequality at the concrete 8x13 frame. -/
theorem claim_C1_witness :
    dCfg3.process_rgba_image 8 13 416 data1 = some L1 ∧
      L1.thumb_tip.x ≤ L1.index_tip.x :=
  ⟨frame1_eval, claim_C1_thumb_le_index dCfg3 8 13 416 data1 L1 frame1_eval⟩

/-- C2: a buffer shorter than `width*height*4` (RGBA) respectively
`width*height*3` (BGR) makes the detector return `None` immediately (the
length gate precedes every read, so no byte of the buffer is accessed and
the embedding is total — no panic). -/
theorem claim_C2_short_buffer_none (d : HandDetector) (width height dataLen : ℕ)
    (data : ℕ → ℕ) :
    (dataLen < width * height * 4 →
      d.process_rgba_image width height dataLen data = none) ∧
    (dataLen < width * height * 3 →
      d.process_bgr_image width height dataLen data = none) := by
  constructor
  · intro hshort
    unfold HandDetector.process_rgba_image
    rw [if_pos hshort]
  · intro hshort
    unfold HandDetector.process_bgr_image
    rw [if_pos hshort]

/-- C2 witness: an empty buffer on a 2x2 frame yields `None` for both entry
points. -/
theorem claim_C2_witness :
    (0 < 2 * 2 * 4 ∧
      HandDetector.new.process_rgba_image 2 2 0 (fun _ => 0) = none) ∧
    (0 < 2 * 2 * 3 ∧
      HandDetector.new.process_bgr_image 2 2 0 (fun _ => 0) = none) :=
  ⟨⟨by norm_num,
      (claim_C2_short_buffer_none HandDetector.new 2 2 0 (fun _ => 0)).1 (by norm_num)⟩,
    ⟨by norm_num,
      (claim_C2_short_buffer_none HandDetector.new 2 2 0 (fun _ => 0)).2 (by norm_num)⟩⟩

/-- C3: with a sufficient buffer, a skin-pixel count strictly below
`min_skin_pixels` (default 2000) makes the detector return `None`; a count
of exactly `min_skin_pixels` passes the gate and the detector proceeds to
the bounding-box stage (the embedding is total, so no crash is possible). -/
theorem claim_C3_count_gate (d : HandDetector) (width height dataLen : ℕ)
    (data : ℕ → ℕ) (hlen : width * height * 4 ≤ dataLen) :
    HandDetector.new.min_skin_pixels = 2000 ∧
    ((skinPixelsRgba width height data).length < d.min_skin_pixels →
      d.process_rgba_image width height dataLen data = none) ∧
    ((skinPixelsRgba width height data).length = d.min_skin_pixels →
      d.process_rgba_image width height dataLen data =
        boundSkinRegion d (skinPixelsRgba width height data)) := by
  refine ⟨rfl, ?_, ?_⟩
  · intro hcount
    unfold HandDetector.process_rgba_image
    rw [if_neg (not_lt.mpr hlen)]
    unfold detectPipeline
    rw [if_pos hcount]
  · intro hcount
    unfold HandDetector.process_rgba_image
    rw [if_neg (not_lt.mpr hlen)]
    unfold detectPipeline
    rw [if_neg (by omega)]

/-- C3 witness: the 8x13 frame has exactly 3 skin pixels; with
`min_skin_pixels = 4` (count = 4 - 1) the result is `None`, with
`min_skin_pixels = 3` the gate passes and the bounding-box stage runs. -/
theorem claim_C3_witness :
    8 * 13 * 4 ≤ 416 ∧
    (skinPixelsRgba 8 13 data1).length < dCfg4.min_skin_pixels ∧
    dCfg4.process_rgba_image 8 13 416 data1 = none ∧
    (skinPixelsRgba 8 13 data1).length = dCfg3.min_skin_pixels ∧
    dCfg3.process_rgba_image 8 13 416 data1 =
      boundSkinRegion dCfg3 (skinPixelsRgba 8 13 data1) := by
  have hc4 : (skinPixelsRgba 8 13 data1).length < dCfg4.min_skin_pixels := by
    rw [frame1_skin]; decide
  have hc3 : (skinPixelsRgba 8 13 data1).length = dCfg3.min_skin_pixels := by
    rw [frame1_skin]; decide
  exact ⟨by norm_num, hc4,
    (claim_C3_count_gate dCfg4 8 13 416 data1 (by norm_num)).2.1 hc4,
    hc3, (claim_C3_count_gate dCfg3 8 13 416 data1 (by norm_num)).2.2 hc3⟩

/-- C4: if the count gate passes but the skin region's bounding box is
degenerate (`max_x = min_x` or `max_y = min_y`), the detector returns
`None`. -/
theorem claim_C4_degenerate_box_none (d : HandDetector)
    (width height dataLen : ℕ) (data : ℕ → ℕ) (min_x max_x min_y max_y : ℕ)
    (hlen : width * height * 4 ≤ dataLen)
    (hcount : ¬ (skinPixelsRgba width height data).length < d.min_skin_pixels)
    (hmnx : ((skinPixelsRgba width height data).map Point.x).min? = some min_x)
    (hmxx : ((skinPixelsRgba width height data).map Point.x).max? = some max_x)
    (hmny : ((skinPixelsRgba width height data).map Point.y).min? = some min_y)
    (hmxy : ((skinPixelsRgba width height data).map Point.y).max? = some max_y)
    (hdeg : max_x = min_x ∨ max_y = min_y) :
    d.process_rgba_image width height dataLen data = none := by
  unfold HandDetector.process_rgba_image
  rw [if_neg (not_lt.mpr hlen)]
  unfold detectPipeline
  rw [if_neg hcount]
  unfold boundSkinRegion
  rw [hmnx, hmxx, hmny, hmxy]
  show (if max_x ≤ min_x ∨ max_y ≤ min_y then none else _) = none
  rw [if_pos (by omega)]

/-- C4 witness: the 4x6 frame with a single-column skin region (2 pixels,
gate at 2) has `max_x = min_x = 2` and the detector returns `None`. -/
theorem claim_C4_witness :
    ¬ (skinPixelsRgba 4 6 data2).length < dCfg2.min_skin_pixels ∧
    ((skinPixelsRgba 4 6 data2).map Point.x).min? = some 2 ∧
    ((skinPixelsRgba 4 6 data2).map Point.x).max? = some 2 ∧
    dCfg2.process_rgba_image 4 6 96 data2 = none := by
  have hcount : ¬ (skinPixelsRgba 4 6 data2).length < dCfg2.min_skin_pixels := by
    rw [frame2_skin]; decide
  have hmnx : ((skinPixelsRgba 4 6 data2).map Point.x).min? = some 2 := by
    rw [frame2_skin]; decide
  have hmxx : ((skinPixelsRgba 4 6 data2).map Point.x).max? = some 2 := by
    rw [frame2_skin]; decide
  have hmny : ((skinPixelsRgba 4 6 data2).map Point.y).min? = some 1 := by
    rw [frame2_skin]; decide
  have hmxy : ((skinPixelsRgba 4 6 data2).map Point.y).max? = some 4 := by
    rw [frame2_skin]; decide
  exact ⟨hcount, hmnx, hmxx,
    claim_C4_degenerate_box_none dCfg2 4 6 96 data2 2 2 1 4 (by norm_num)
      hcount hmnx hmxx hmny hmxy (Or.inl rfl)⟩

/-- C5: once the gates pass, the detector's result is a function of the skin
pixels with `y < min_y + (max_y - min_y) / 3` alone (the fingertip
candidates are drawn exclusively from that filtered set), and if fewer than
2 such points exist the detector returns `None`. -/
theorem claim_C5_top_third_filter (d : HandDetector)
    (width height dataLen : ℕ) (data : ℕ → ℕ) (min_x max_x min_y max_y : ℕ)
    (hlen : width * height * 4 ≤ dataLen)
    (hcount : ¬ (skinPixelsRgba width height data).length < d.min_skin_pixels)
    (hmnx : ((skinPixelsRgba width height data).map Point.x).min? = some min_x)
    (hmxx : ((skinPixelsRgba width height data).map Point.x).max? = some max_x)
    (hmny : ((skinPixelsRgba width height data).map Point.y).min? = some min_y)
    (hmxy : ((skinPixelsRgba width height data).map Point.y).max? = some max_y)
    (hnd : ¬ (max_x ≤ min_x ∨ max_y ≤ min_y)) :
    d.process_rgba_image width height dataLen data =
      detectFromTop d ((skinPixelsRgba width height data).filter
        (fun p => p.y < min_y + (max_y - min_y) / 3)) ∧
    (((skinPixelsRgba width height data).filter
        (fun p => p.y < min_y + (max_y - min_y) / 3)).length < 2 →
      d.process_rgba_image width height dataLen data = none) := by
  have hmain : d.process_rgba_image width height dataLen data =
      detectFromTop d ((skinPixelsRgba width height data).filter
        (fun p => p.y < min_y + (max_y - min_y) / 3)) := by
    unfold HandDetector.process_rgba_image
    rw [if_neg (not_lt.mpr hlen)]
    unfold detectPipeline
    rw [if_neg hcount]
    unfold boundSkinRegion
    rw [hmnx, hmxx, hmny, hmxy]
    show (if max_x ≤ min_x ∨ max_y ≤ min_y then none else _) = _
    rw [if_neg hnd]
  refine ⟨hmain, ?_⟩
  intro hfew
  rw [hmain]
  unfold detectFromTop
  rw [if_pos hfew]

/-- C5 witness: on the 8x13 frame (`min_y = 0`, `max_y = 12`, threshold 4)
the filtered set is the two points (5,0) and (5,3) and the detector result
factors through it. -/
theorem claim_C5_witness :
    ¬ (8 * 13 * 4 > 416) ∧
    dCfg3.process_rgba_image 8 13 416 data1 =
      detectFromTop dCfg3 ((skinPixelsRgba 8 13 data1).filter
        (fun p => p.y < 0 + (12 - 0) / 3)) := by
  have hcount : ¬ (skinPixelsRgba 8 13 data1).length < dCfg3.min_skin_pixels := by
    rw [frame1_skin]; decide
  have hmnx : ((skinPixelsRgba 8 13 data1).map Point.x).min? = some 5 := by
    rw [frame1_skin]; decide
  have hmxx : ((skinPixelsRgba 8 13 data1).map Point.x).max? = some 6 := by
    rw [frame1_skin]; decide
  have hmny : ((skinPixelsRgba 8 13 data1).map Point.y).min? = some 0 := by
    rw [frame1_skin]; decide
  have hmxy : ((skinPixelsRgba 8 13 data1).map Point.y).max? = some 12 := by
    rw [frame1_skin]; decide
  exact ⟨by norm_num,
    (claim_C5_top_third_filter dCfg3 8 13 416 data1 5 6 0 12 (by norm_num)
      hcount hmnx hmxx hmny hmxy (by norm_num)).1⟩

/-- C6: in the geometric strategy (with at least 3 hull vertices, so the
hull gate passes), a failed convexity-defect computation, and likewise a
fingertip-candidate count below 2, both delegate to the fallback extractor
`simple_landmark_detection` — the strategy neither errors out nor returns
`None` directly in those cases. -/
theorem claim_C6_delegates_to_fallback (contour : List CvPoint)
    (hull : List ℤ) (defectsResult : Except Unit Unit) (m : Moments)
    (hhull : 3 ≤ hull.length) :
    (defectsResult = .error () →
      extract_hand_landmarks contour hull defectsResult m =
        simple_landmark_detection m contour) ∧
    ((hullFingertips contour hull).length < 2 →
      extract_hand_landmarks contour hull defectsResult m =
        simple_landmark_detection m contour) := by
  unfold extract_hand_landmarks
  rw [if_neg (by omega)]
  constructor
  · rintro rfl
    rfl
  · intro hfew
    cases defectsResult with
    | error e => rfl
    | ok u =>
      show (if (hullFingertips contour hull).length < 2 then
        simple_landmark_detection m contour else _) = _
      rw [if_pos hfew]

/-- C6 witness: a one-point contour with hull indices `[0, 1, 2]` (two of
them out of bounds) collects a single fingertip candidate, and the strategy
equals the fallback even though the defect computation succeeded. -/
theorem claim_C6_witness :
    3 ≤ ([0, 1, 2] : List ℤ).length ∧
    (hullFingertips [⟨0, 0⟩] [0, 1, 2]).length < 2 ∧
    extract_hand_landmarks [⟨0, 0⟩] [0, 1, 2] (.ok ()) ⟨1, 0, 0⟩ =
      simple_landmark_detection ⟨1, 0, 0⟩ [⟨0, 0⟩] :=
  ⟨by decide, by decide,
    (claim_C6_delegates_to_fallback [⟨0, 0⟩] [0, 1, 2] (.ok ()) ⟨1, 0, 0⟩
      (by decide)).2 (by decide)⟩

/-- C7: whenever the pixel-scan detector returns `Some`, both landmark
coordinates lie inside the frame: `0 ≤ x < width` and `0 ≤ y < height`
(the greedy pairwise averaging of the clustering loop never leaves the
frame). -/
theorem claim_C7_landmarks_in_frame (d : HandDetector)
    (width height dataLen : ℕ) (data : ℕ → ℕ) (l : HandLandmarks)
    (hl : d.process_rgba_image width height dataLen data = some l) :
    (0 ≤ l.thumb_tip.x ∧ l.thumb_tip.x < (width : ℚ)) ∧
    (0 ≤ l.thumb_tip.y ∧ l.thumb_tip.y < (height : ℚ)) ∧
    (0 ≤ l.index_tip.x ∧ l.index_tip.x < (width : ℚ)) ∧
    (0 ≤ l.index_tip.y ∧ l.index_tip.y < (height : ℚ)) := by
  obtain ⟨tp, htp, htop⟩ := process_rgba_some hl
  obtain ⟨a, b, rest, hshape, rfl⟩ := detectFromTop_some htop
  have hbound : ∀ p ∈ clusterLoop d.grouping_threshold
      ((sortByKey Point.y tp).take 100) [], p.x < width ∧ p.y < height := by
    refine clusterLoop_bound ?_ (by simp)
    intro p hp
    have h1 : p ∈ sortByKey Point.y tp := List.take_subset 100 _ hp
    have h2 : p ∈ tp := (mem_sortByKey Point.y p tp).mp h1
    exact skinPixelsRgba_bound p (htp p h2)
  have ha : a ∈ sortByKey Point.x (clusterLoop d.grouping_threshold
      ((sortByKey Point.y tp).take 100) []) := by
    rw [hshape]; exact List.mem_cons_self a _
  have hb : b ∈ sortByKey Point.x (clusterLoop d.grouping_threshold
      ((sortByKey Point.y tp).take 100) []) := by
    rw [hshape]; exact List.mem_cons_of_mem a (List.mem_cons_self b rest)
  have ha2 := hbound a ((mem_sortByKey Point.x a _).mp ha)
  have hb2 := hbound b ((mem_sortByKey Point.x b _).mp hb)
  refine ⟨⟨?_, ?_⟩, ⟨?_, ?_⟩, ⟨?_, ?_⟩, ⟨?_, ?_⟩⟩
  · exact Nat.cast_nonneg a.x
  · exact Nat.cast_lt.mpr ha2.1
  · exact Nat.cast_nonneg a.y
  · exact Nat.cast_lt.mpr ha2.2
  · exact Nat.cast_nonneg b.x
  · exact Nat.cast_lt.mpr hb2.1
  · exact Nat.cast_nonneg b.y
  · exact Nat.cast_lt.mpr hb2.2

/-- C7 witness: the bounds at the concrete 8x13 frame. -/
theorem claim_C7_witness :
    dCfg3.process_rgba_image 8 13 416 data1 = some L1 ∧
    (0 ≤ L1.thumb_tip.x ∧ L1.thumb_tip.x < (8 : ℚ)) ∧
    (0 ≤ L1.index_tip.y ∧ L1.index_tip.y < (13 : ℚ)) :=
  ⟨frame1_eval,
    (claim_C7_landmarks_in_frame dCfg3 8 13 416 data1 L1 frame1_eval).1,
    (claim_C7_landmarks_in_frame dCfg3 8 13 416 data1 L1 frame1_eval).2.2.2⟩

/-- C8: `Rgb::to_hsv` is total (a total Lean function by construction) and,
for every 8-bit triple (components at most 255), returns `h` in `[0, 360)`,
`s` in `[0, 100]`, `v` in `[0, 100]`; every gray triple (`r = g = b`) yields
`h = 0`. -/
theorem claim_C8_to_hsv_total_bounds (c : Rgb) (hr : c.r ≤ 255) (hg : c.g ≤ 255) (hb : c.b ≤ 255) :
    (0 ≤ c.to_hsv.h ∧ c.to_hsv.h < 360) ∧ (0 ≤ c.to_hsv.s ∧ c.to_hsv.s ≤ 100) ∧
      (0 ≤ c.to_hsv.v ∧ c.to_hsv.v ≤ 100) ∧ (c.r = c.g → c.g = c.b → c.to_hsv.h = 0) := by
  have h255 : (0:ℚ) < 255 := by norm_num
  simp only [Rgb.to_hsv]
  set rq : ℚ := (c.r : ℚ) / 255 with hrq
  set gq : ℚ := (c.g : ℚ) / 255 with hgq
  set bq : ℚ := (c.b : ℚ) / 255 with hbq
  have hr0 : 0 ≤ rq := div_nonneg (Nat.cast_nonneg _) (le_of_lt h255)
  have hg0 : 0 ≤ gq := div_nonneg (Nat.cast_nonneg _) (le_of_lt h255)
  have hb0 : 0 ≤ bq := div_nonneg (Nat.cast_nonneg _) (le_of_lt h255)
  have hr1 : rq ≤ 1 := by rw [hrq, div_le_one h255]; exact_mod_cast hr
  have hg1 : gq ≤ 1 := by rw [hgq, div_le_one h255]; exact_mod_cast hg
  have hb1 : bq ≤ 1 := by rw [hbq, div_le_one h255]; exact_mod_cast hb
  set M : ℚ := Max.max (Max.max rq gq) bq with hM
  set m : ℚ := Min.min (Min.min rq gq) bq with hm
  have hrM : rq ≤ M := le_trans (le_max_left _ _) (le_max_left _ _)
  have hgM : gq ≤ M := le_trans (le_max_right _ _) (le_max_left _ _)
  have hbM : bq ≤ M := le_max_right _ _
  have hmr : m ≤ rq := le_trans (min_le_left _ _) (min_le_left _ _)
  have hmg : m ≤ gq := le_trans (min_le_left _ _) (min_le_right _ _)
  have hmb : m ≤ bq := min_le_right _ _
  have hM0 : 0 ≤ M := le_trans hr0 hrM
  have hM1 : M ≤ 1 := max_le (max_le hr1 hg1) hb1
  have hm0 : 0 ≤ m := le_min (le_min hr0 hg0) hb0
  have hmM : m ≤ M := le_trans hmr hrM
  have hMcases : M = rq ∨ M = gq ∨ M = bq := by
    rcases max_choice (Max.max rq gq) bq with h | h
    · rcases max_choice rq gq with h2 | h2
      · exact Or.inl (h.trans h2)
      · exact Or.inr (Or.inl (h.trans h2))
    · exact Or.inr (Or.inr h)
  set H0 : ℚ :=
    (if M - m = 0 then 0
     else if M = rq then 60 * fmodf ((gq - bq) / (M - m)) 6
     else if M = gq then 60 * (((bq - rq) / (M - m)) + 2)
     else 60 * (((rq - gq) / (M - m)) + 4)) with hH0def
  have hH0 : -60 ≤ H0 ∧ H0 ≤ 300 := by
    rw [hH0def]
    split
    · norm_num
    · rename_i hdelta
      have hd0 : 0 < M - m := lt_of_le_of_ne (by linarith) (Ne.symm hdelta)
      split
      · rename_i hMr
        have hx1 : (gq - bq) / (M - m) ≤ 1 := by
          rw [div_le_one hd0]; linarith
        have hx2 : -1 ≤ (gq - bq) / (M - m) := by
          rw [le_div_iff₀ hd0]; linarith
        rw [fmodf_eq_self (by norm_num) (by linarith) (by linarith)]
        constructor <;> linarith
      · split
        · rename_i hMg
          have hx1 : (bq - rq) / (M - m) ≤ 1 := by
            rw [div_le_one hd0]; linarith
          have hx2 : -1 ≤ (bq - rq) / (M - m) := by
            rw [le_div_iff₀ hd0]; linarith
          constructor <;> linarith
        · rename_i hMr hMg
          have hx1 : (rq - gq) / (M - m) ≤ 1 := by
            rw [div_le_one hd0]; linarith
          have hx2 : -1 ≤ (rq - gq) / (M - m) := by
            rw [le_div_iff₀ hd0]; linarith
          constructor <;> linarith
  refine ⟨⟨?_, ?_⟩, ⟨?_, ?_⟩, ⟨?_, ?_⟩, ?_⟩
  · split
    · rename_i hneg; linarith [hH0.1]
    · rename_i hneg; linarith [le_of_not_lt hneg]
  · split
    · rename_i hneg; linarith [hneg]
    · rename_i hneg; linarith [hH0.2]
  · split
    · exact le_refl 0
    · rename_i hMne
      have hMpos : 0 < M := lt_of_le_of_ne hM0 (Ne.symm hMne)
      have : 0 ≤ (M - m) / M := div_nonneg (by linarith) (le_of_lt hMpos)
      linarith
  · split
    · norm_num
    · rename_i hMne
      have hMpos : 0 < M := lt_of_le_of_ne hM0 (Ne.symm hMne)
      have : (M - m) / M ≤ 1 := by rw [div_le_one hMpos]; linarith
      linarith
  · linarith
  · linarith
  · intro h1 h2
    have e1 : rq = gq := by rw [hrq, hgq, h1]
    have e2 : gq = bq := by rw [hgq, hbq, h2]
    have hMm : M - m = 0 := by
      rw [hM, hm, e1, e2]; simp
    have hH00 : H0 = 0 := by rw [hH0def, if_pos hMm]
    rw [hH00]
    norm_num

/-- C8 witness: the bounds at the concrete triple (180, 150, 120). -/
theorem claim_C8_witness :
    colorSkin.r ≤ 255 ∧ colorSkin.g ≤ 255 ∧ colorSkin.b ≤ 255 ∧
    (0 ≤ colorSkin.to_hsv.h ∧ colorSkin.to_hsv.h < 360) :=
  ⟨by decide, by decide, by decide,
    (claim_C8_to_hsv_total_bounds colorSkin (by decide) (by decide)
      (by decide)).1⟩

/-- C9: `pinch_distance` is nonnegative and equals the Euclidean distance
between `thumb_tip` and `index_tip` (the metric of `EuclideanSpace ℝ (Fin 2)`);
at thumb = (0,0), index = (30,40) it is exactly 50. -/
theorem claim_C9_pinch_distance :
    (∀ l : HandLandmarks, 0 ≤ l.pinch_distance ∧
      l.pinch_distance = dist l.thumb_tip.toEuclidean l.index_tip.toEuclidean) ∧
    (HandLandmarks.new (Position.new 0 0) (Position.new 30 40)).pinch_distance
      = 50 := by
  constructor
  · intro l
    refine ⟨Real.sqrt_nonneg _, ?_⟩
    rw [EuclideanSpace.dist_eq, Fin.sum_univ_two]
    unfold HandLandmarks.pinch_distance Position.distance_to Position.toEuclidean
    simp only [Matrix.cons_val_zero, Matrix.cons_val_one, Matrix.head_cons,
      Real.dist_eq]
    congr 1
    rw [sq_abs, sq_abs]
    ring
  · unfold HandLandmarks.pinch_distance Position.distance_to
      HandLandmarks.new Position.new
    norm_num
    rw [show (2500 : ℝ) = 50 ^ 2 by norm_num]
    exact Real.sqrt_sq (by norm_num)

/-- C10: `process_rgba_image` and `process_bgr_image` agree up to channel
layout: for every configuration, frame size and pixel grid, running the RGBA
entry point on the grid's row-major RGBA encoding equals running the BGR
entry point on its row-major BGR encoding. -/
theorem claim_C10_rgba_bgr_equivalent (d : HandDetector) (width height : ℕ)
    (grid : ℕ → ℕ → Rgb) :
    d.process_rgba_image width height (width * height * 4)
        (encodeRgba width grid) =
      d.process_bgr_image width height (width * height * 3)
        (encodeBgr width grid) := by
  unfold HandDetector.process_rgba_image HandDetector.process_bgr_image
  rw [if_neg (lt_irrefl _), if_neg (lt_irrefl _)]
  have hskin : skinPixelsRgba width height (encodeRgba width grid) =
      skinPixelsBgr width height (encodeBgr width grid) := by
    unfold skinPixelsRgba skinPixelsBgr
    apply List.filter_congr
    intro p hp
    have hx : p.x < width := (mem_allPoints.mp hp).1
    rw [rgbaPixel_encode width grid p.x p.y hx,
      bgrPixel_encode width grid p.x p.y hx]
  rw [hskin]
